import Mathlib

/-!
Verification development for the `funcbuilder` deferred-expression
interpreter (`funcbuilder/py_dot.py`).

The Python source is shallowly embedded:

* Python values that the claims exercise are modelled by `PyDot.Value`
  (ints — Python `bool` is an `int` subtype and is modelled as `0`/`1` —
  strings, `None`, lists, attribute-bearing host objects, and the classes
  materialized by `Class.end`).
* `real_attribute` (py_dot.py lines 378-432), including its
  `re.findall(r'\w+?(?=__|$)', attr)` segmentation, is modelled by
  `segs` / `real_attribute_get` / `real_attribute_set`.  `setattr` on a
  shared host object is modelled by functional write-back into the
  environment dictionary; the claims never observe aliasing.
* `Environment` (lines 443-533) is `PyDot.Env`.  The parent scope, which the
  Python code stores in the dictionary under the literal key `"__parent__"`,
  is modelled as a separate field; no claim looks up the name
  `"__parent__"` itself.
* The deferred expressions produced by the external `FuncBuilder`
  collaborator are modelled by `Expr`/`Dat` through their evaluation
  contract (spec section 6): one evaluation step yields either a concrete
  value or another deferred expression (constructor `Expr.deferred` models
  the latter possibility, which is why `calculate`, lines 102-110, loops).
* The execution machinery of `Function.__call__` (lines 191-228), with
  `CodeIter`/`InsertIter` (lines 60-95), `Condition.code_to_exec`
  (lines 322-327) and `Loop`/`LoopIter` (lines 335-371), is modelled by
  `Code`, `DState`, `nextInstr` and the fuelled interpreter `drive`.
  The generator in `CodeIter.__iter__` holds its own reference to the
  `LoopIter` it is iterating, while `create_loop` replaces the slot: the
  `Held` state mirrors that aliasing.  Exhaustion of the instruction
  stream makes `Function.__call__` return `None` (line 228).
-/

namespace PyDot

/-- Error conditions surfaced by the interpreter, mirroring the Python
exception classes raised by `py_dot.py` (`TypeError` carries the message
built at the raise site, `KeyError`/`AttributeError` carry the offending
name).  `fuel` is the out-of-fuel marker of the fuelled interpreter. -/
inductive Err : Type where
  | typeMismatch (msg : String)
  | keyMiss (k : String)
  | attrMiss (k : String)
  | valueMiss (msg : String)
  | indexMiss
  | stopIter
  | fuel
deriving Repr, DecidableEq

/-- Python runtime values reachable by the embedded programs.  Python
booleans are `int` (`True == 1`), so comparisons return `int 1` / `int 0`. -/
inductive Value : Type where
  | int (n : Int)
  | str (s : String)
  | none
  | list (elems : List Value)
  | obj (fields : List (String × Value))
  | cls (name : String) (bases : List String) (fields : List (String × Value))
deriving Repr

mutual

/-- Python `==` on the modelled values (structural; the claims only compare
ints, `None` and lists). -/
def valueEq : Value → Value → Bool
  | .int a, .int b => a == b
  | .str a, .str b => a == b
  | .none, .none => true
  | .list a, .list b => valueListEq a b
  | .obj a, .obj b => valueFieldsEq a b
  | .cls n1 b1 f1, .cls n2 b2 f2 => n1 == n2 && b1 == b2 && valueFieldsEq f1 f2
  | _, _ => false

def valueListEq : List Value → List Value → Bool
  | [], [] => true
  | a :: as, b :: bs => valueEq a b && valueListEq as bs
  | _, _ => false

def valueFieldsEq : List (String × Value) → List (String × Value) → Bool
  | [], [] => true
  | (k1, v1) :: r1, (k2, v2) :: r2 => k1 == k2 && valueEq v1 v2 && valueFieldsEq r1 r2
  | _, _ => false

end

/-- Python truthiness (`bool(x)`) for the modelled values. -/
def truthy : Value → Bool
  | .int n => n != 0
  | .str s => s != ""
  | .none => false
  | .list l => !l.isEmpty
  | .obj _ => true
  | .cls _ _ _ => true

/-- Python `+` on the modelled values. -/
def pyAdd : Value → Value → Except Err Value
  | .int a, .int b => .ok (.int (a + b))
  | .str a, .str b => .ok (.str (a ++ b))
  | .list a, .list b => .ok (.list (a ++ b))
  | _, _ => .error (.typeMismatch "unsupported operand type(s) for +")

/-- Python `**` on ints (a negative exponent would produce a float, which is
outside the model). -/
def pyPow : Value → Value → Except Err Value
  | .int a, .int b =>
      if b < 0 then .error (.typeMismatch "negative power not modelled")
      else .ok (.int (a ^ b.toNat))
  | _, _ => .error (.typeMismatch "unsupported operand type(s) for **")

/-- Python `len`. -/
def pyLen : Value → Except Err Nat
  | .list l => .ok l.length
  | .str s => .ok s.length
  | _ => .error (.typeMismatch "object has no len()")

/-- Python `iter` drained to a list of elements. -/
def pyElems : Value → Except Err (List Value)
  | .list l => .ok l
  | .str s => .ok (s.data.map (fun c => Value.str (String.mk [c])))
  | _ => .error (.typeMismatch "object is not iterable")

/-- Dictionary lookup (`dic[k]`, as `Option`).  The modelled dictionaries
have unique keys, as Python guarantees. -/
def lookupD : List (String × Value) → String → Option Value
  | [], _ => Option.none
  | p :: rest, k => if p.1 == k then some p.2 else lookupD rest k

/-- Dictionary store `dic[k] = v`: replace in place when the key exists
(Python dicts keep the original insertion position), else append. -/
def setD : List (String × Value) → String → Value → List (String × Value)
  | [], k, v => [(k, v)]
  | p :: rest, k, v =>
      if p.1 == k then (k, v) :: rest else p :: setD rest k v

/-- Python `getattr` on a host object. -/
def pyGetattr (v : Value) (name : String) : Except Err Value :=
  match v with
  | .obj fields =>
      match lookupD fields name with
      | some w => .ok w
      | Option.none => .error (.attrMiss name)
  | .cls _ _ fields =>
      match lookupD fields name with
      | some w => .ok w
      | Option.none => .error (.attrMiss name)
  | _ => .error (.attrMiss name)

/-- One match of the non-greedy regex `\w+?(?=__|$)` starting at the head of
the character list: the shortest nonempty prefix whose remainder either
starts with `__` or is empty.  Returns the match and the remainder. -/
def takeSeg : List Char → List Char × List Char
  | [] => ([], [])
  | c :: rest =>
      if rest.take 2 = ['_', '_'] ∨ rest = [] then ([c], rest)
      else
        let (m, r) := takeSeg rest
        (c :: m, r)

/-- Successive matches of `\w+?(?=__|$)` (fuelled by the string length,
which always suffices since every match is nonempty). -/
def segsAux : Nat → List Char → List (List Char)
  | 0, _ => []
  | _, [] => []
  | n + 1, c :: rest =>
      let (m, r) := takeSeg (c :: rest)
      m :: segsAux n r

/-- `re.findall(r'\w+?(?=__|$)', attr)` of py_dot.py line 394, for the
identifier-like names the interpreter feeds it. -/
def segs (attr : String) : List String :=
  (segsAux attr.length attr.data).map (fun l => String.mk l)

/-- Test for a leading `__` (on the character list, which the kernel can
evaluate). -/
def startsUU (s : String) : Bool :=
  s.data.take 2 = ['_', '_']

/-- Strip one leading `__` (`re.sub(r'^__', '', x)`, py_dot.py line 414). -/
def stripUU (s : String) : String :=
  if startsUU s then String.mk (s.data.drop 2) else s

/-- The `while x == '_':` chain of py_dot.py lines 417-419: consume further
segments while each one is a bare `_`, concatenating their stripped forms.
Running off the end of the segment list is Python's `StopIteration`. -/
def takeChain : List String → Except Err (String × List String)
  | [] => .error .stopIter
  | x :: rest =>
      if x = "_" then
        match takeChain rest with
        | .error e => .error e
        | .ok (nm, r) => .ok ("_" ++ nm, r)
      else .ok (stripUU x, rest)

/-- The `fixed_names` loop of py_dot.py lines 410-421 (fuelled by the list
length, which always suffices). -/
def fixNamesAux : Nat → List String → Except Err (List String)
  | 0, _ => .ok []
  | _, [] => .ok []
  | n + 1, x :: rest =>
      if x = "_" then
        match takeChain rest with
        | .error e => .error e
        | .ok (nm, r) =>
            match fixNamesAux n r with
            | .error e => .error e
            | .ok f => .ok (("_" ++ nm) :: f)
      else
        match fixNamesAux n rest with
        | .error e => .error e
        | .ok f => .ok (stripUU x :: f)

def fixNames (l : List String) : Except Err (List String) :=
  fixNamesAux l.length l

/-- The rename `self -> $` applied to an attribute name
(py_dot.py lines 392-393). -/
def fixAttr (attr : String) : String :=
  if attr = "self" then "$" else attr

/-- The literal-key test of py_dot.py line 397, on the already-renamed name:
`attr == '$' or (names[0].startswith('__') and names[-1] == '__') or
len(names) == 1`. -/
def literalKey (attr : String) (names : List String) : Bool :=
  attr == "$" ||
  (match names with
   | [] => false
   | n0 :: _ => startsUU n0 && names.getLastD "" == "__") ||
  names.length == 1

/-- `real_attribute(dic, attr)` (get form, py_dot.py lines 378-432). -/
def real_attribute_get (dic : List (String × Value)) (attr0 : String) :
    Except Err Value :=
  let attr := fixAttr attr0
  let names := segs attr
  if literalKey attr names then
    match lookupD dic attr with
    | some v => .ok v
    | Option.none => .error (.keyMiss attr)
  else
    match names with
    | [] => .error .indexMiss
    | n0 :: restNames =>
        let objKey := if n0 = "self" then "$" else n0
        match lookupD dic objKey with
        | Option.none => .error (.keyMiss objKey)
        | some obj =>
            match fixNames restNames with
            | .error e => .error e
            | .ok fixed =>
                match fixed.getLast? with
                | Option.none => .error (.valueMiss "not enough values to unpack")
                | some setter =>
                    match fixed.dropLast.foldlM pyGetattr obj with
                    | .error e => .error e
                    | .ok target => pyGetattr target setter

/-- Walk `getters` with `getattr` and apply `setattr` to the last name,
writing the updated object back (functional image of the in-place
`setattr` at py_dot.py line 430). -/
def pySetPath : Value → List String → String → Value → Except Err Value
  | .obj fields, [], setter, v => .ok (.obj (setD fields setter v))
  | .obj fields, g :: gs, setter, v =>
      match lookupD fields g with
      | Option.none => .error (.attrMiss g)
      | some inner =>
          match pySetPath inner gs setter v with
          | .error e => .error e
          | .ok inner2 => .ok (.obj (setD fields g inner2))
  | .cls nm bs fields, [], setter, v => .ok (.cls nm bs (setD fields setter v))
  | .cls nm bs fields, g :: gs, setter, v =>
      match lookupD fields g with
      | Option.none => .error (.attrMiss g)
      | some inner =>
          match pySetPath inner gs setter v with
          | .error e => .error e
          | .ok inner2 => .ok (.cls nm bs (setD fields g inner2))
  | _, [], setter, _ => .error (.attrMiss setter)
  | _, g :: _, _, _ => .error (.attrMiss g)

/-- `real_attribute(dic, attr, value, do_set=True)`
(py_dot.py lines 378-432). -/
def real_attribute_set (dic : List (String × Value)) (attr0 : String)
    (value : Value) : Except Err (List (String × Value)) :=
  let attr := fixAttr attr0
  let names := segs attr
  if literalKey attr names then .ok (setD dic attr value)
  else
    match names with
    | [] => .error .indexMiss
    | n0 :: restNames =>
        let objKey := if n0 = "self" then "$" else n0
        match lookupD dic objKey with
        | Option.none => .error (.keyMiss objKey)
        | some obj =>
            match fixNames restNames with
            | .error e => .error e
            | .ok fixed =>
                match fixed.getLast? with
                | Option.none => .error (.valueMiss "not enough values to unpack")
                | some setter =>
                    match pySetPath obj fixed.dropLast setter value with
                    | .error e => .error e
                    | .ok obj2 => .ok (setD dic objKey obj2)

/-- An `Environment` (py_dot.py lines 443-533): a dictionary of bindings
plus the optional parent scope (stored by the Python code under the literal
dictionary key `"__parent__"`, modelled here as a field). -/
inductive Env : Type where
  | mk (d : List (String × Value)) (parent : Option Env)

/-- The binding dictionary of an environment. -/
def Env.dict : Env → List (String × Value)
  | .mk d _ => d

/-- The parent scope of an environment. -/
def Env.par : Env → Option Env
  | .mk _ p => p

/-- `Environment.__getattr__` (py_dot.py lines 468-478): resolve through
`real_attribute` locally; only a `KeyError` falls through to the parent
scope; with no parent left the name fails with `AttributeError`. -/
def envGetattr : Env → String → Except Err Value
  | .mk d parent, name =>
      match real_attribute_get d name with
      | .ok v => .ok v
      | .error (.keyMiss _) =>
          match parent with
          | some p => envGetattr p name
          | Option.none => .error (.attrMiss name)
      | .error e => .error e

/-- `Environment.set` (py_dot.py lines 480-488) applied to a list of
keyword bindings in order. -/
def setManyD : List (String × Value) → List (String × Value) →
    Except Err (List (String × Value))
  | d, [] => .ok d
  | d, (k, v) :: rest =>
      match real_attribute_set d k v with
      | .error e => .error e
      | .ok d2 => setManyD d2 rest

def envSetMany (env : Env) (kvs : List (String × Value)) : Except Err Env :=
  match env with
  | .mk d parent =>
      match setManyD d kvs with
      | .error e => .error e
      | .ok d2 => .ok (.mk d2 parent)

mutual

/-- Deferred expressions built by the external `FuncBuilder` collaborator
(`var.x`, `var.x + var.y`, ...), modelled through their evaluation contract
(spec section 6): `Expr.deferred` is a deferred expression whose single
evaluation step yields its payload — possibly another deferred expression —
which is why `calculate` (py_dot.py lines 102-110) loops. -/
inductive Expr : Type where
  | var (name : String)
  | add (a b : Dat)
  | pow (a b : Dat)
  | eq (a b : Dat)
  | deferred (d : Dat)

/-- A piece of instruction payload: either a concrete value or a deferred
expression. -/
inductive Dat : Type where
  | val (v : Value)
  | expr (e : Expr)

end

mutual

/-- Full evaluation of a payload against an environment.  `var.x` performs
`getattr(environment, 'x')`, i.e. the chained environment lookup. -/
def evalDat : Dat → Env → Except Err Value
  | .val v, _ => .ok v
  | .expr e, env => evalExpr e env

def evalExpr : Expr → Env → Except Err Value
  | .var n, env => envGetattr env n
  | .add a b, env =>
      match evalDat a env with
      | .error e => .error e
      | .ok va =>
          match evalDat b env with
          | .error e => .error e
          | .ok vb => pyAdd va vb
  | .pow a b, env =>
      match evalDat a env with
      | .error e => .error e
      | .ok va =>
          match evalDat b env with
          | .error e => .error e
          | .ok vb => pyPow va vb
  | .eq a b, env =>
      match evalDat a env with
      | .error e => .error e
      | .ok va =>
          match evalDat b env with
          | .error e => .error e
          | .ok vb => .ok (.int (if valueEq va vb then 1 else 0))
  | .deferred d, env => evalDat d env

end

/-- One `data.do(environ)` application step: a `deferred` wrapper yields its
payload (possibly still deferred); any other expression evaluates to a
concrete value. -/
def evalStep (e : Expr) (env : Env) : Except Err Dat :=
  match e with
  | .deferred d => .ok d
  | e =>
      match evalExpr e env with
      | .error er => .error er
      | .ok v => .ok (.val v)

/-- The iteration of the `while` loop in `calculate` (py_dot.py
lines 103-109), fuelled against the upstream-documented possibility of
repeated deferral: apply one evaluation step, stop at the first
non-deferred result. -/
def calcLoop : Nat → Expr → Env → Except Err Value
  | 0, _, _ => .error .fuel
  | fuel + 1, e, env =>
      match evalStep e env with
      | .error er => .error er
      | .ok (.val v) => .ok v
      | .ok (.expr e2) => calcLoop fuel e2 env

/-- `calculate(data, environ)` (py_dot.py lines 102-110): while the data is
a deferred expression, replace it by the result of one evaluation step;
return the first non-deferred value unchanged. -/
def calculate (fuel : Nat) (d : Dat) (env : Env) : Except Err Value :=
  match d with
  | .val v => .ok v
  | .expr e => calcLoop fuel e env

/-- One instruction of a `Function` body (class `Code`, py_dot.py
lines 43-57).  A `condition` instruction carries the branch predicates
paired with their bodies plus the default body (the state of the
`Condition` object when the call runs); a `loop` instruction carries the
loop variable, the source payload and the loop body. -/
inductive Code : Type where
  | update (binds : List (String × Dat))
  | push (d : Dat)
  | ret
  | condition (branches : List (Dat × List Code)) (defaultBody : List Code)
  | loop (name : String) (src : Dat) (body : List Code)

/-- A `LoopIter` (py_dot.py lines 358-371): loop variable, the not yet
consumed elements of the activated source, and the loop body. -/
structure LoopSt : Type where
  name : String
  elems : List Value
  body : List Code

/-- Position of the `CodeIter.__iter__` generator (py_dot.py lines 65-75)
relative to its `for loop in self.loop` statement: not inside it, inside it
iterating the `LoopIter` currently held in the slot, or inside it iterating
an old `LoopIter` after `create_loop` replaced the slot. -/
inductive Held : Type where
  | outside
  | inSlot
  | inOld (ls : LoopSt)

/-- The state of a `CodeIter` (py_dot.py lines 60-81): the base instruction
sequence (an `InsertIter`, with condition bodies spliced at the front), the
remainder of the per-element chain currently being yielded, the `self.loop`
slot, and the generator position. -/
structure DState : Type where
  base : List Code
  chain : List Code
  slot : Option LoopSt
  held : Held

/-- Yield the next instruction from the base sequence (`next(self.code)`),
returning to the top of the generator loop afterwards. -/
def emitBase (st : DState) : Option (Code × DState) :=
  match st.base with
  | c :: cs => some (c, { st with base := cs, held := .outside })
  | [] => Option.none

/-- The next instruction produced by the `CodeIter.__iter__` generator:
first drain the current per-element chain, then the active `LoopIter`
(each element contributes a bind-the-loop-variable `update` followed by the
loop body), then fall back to the base sequence. -/
def nextInstr (st : DState) : Option (Code × DState) :=
  match st.chain with
  | c :: cs => some (c, { st with chain := cs })
  | [] =>
      match st.held with
      | .inOld ls =>
          match ls.elems with
          | e :: rest =>
              some (Code.update [(ls.name, Dat.val e)],
                { st with chain := ls.body, held := .inOld ⟨ls.name, rest, ls.body⟩ })
          | [] => emitBase st
      | _ =>
          match st.slot with
          | some ls =>
              match ls.elems with
              | e :: rest =>
                  some (Code.update [(ls.name, Dat.val e)],
                    { st with chain := ls.body, slot := some ⟨ls.name, rest, ls.body⟩, held := .inSlot })
              | [] => emitBase st
          | Option.none => emitBase st

/-- `Condition.code_to_exec` (py_dot.py lines 322-327): reduce the branch
predicates in declared order against the calling environment; the first
truthy predicate selects its body, otherwise the default body is used. -/
def code_to_exec (fuel : Nat) (env : Env) :
    List (Dat × List Code) → List Code → Except Err (List Code)
  | [], els => .ok els
  | (p, body) :: rest, els =>
      match calculate fuel p env with
      | .error e => .error e
      | .ok v => if truthy v then .ok body else code_to_exec fuel env rest els

/-- Evaluate the right-hand sides of an `update` payload (the dict
comprehension at py_dot.py line 216 evaluates every value before any
binding is applied). -/
def evalBinds (fuel : Nat) (binds : List (String × Dat)) (env : Env) :
    Except Err (List (String × Value)) :=
  match binds with
  | [] => .ok []
  | (k, d) :: rest =>
      match calculate fuel d env with
      | .error e => .error e
      | .ok v =>
          match evalBinds fuel rest env with
          | .error e => .error e
          | .ok kvs => .ok ((k, v) :: kvs)

/-- The dispatcher loop of `Function.__call__` (py_dot.py lines 212-228),
fuelled by the number of executed instructions.  `ok (some v)` is a `ret`
instruction returning the last pushed value; `ok none` is exhaustion of the
instruction stream without a `ret`. -/
def drive : Nat → DState → Env → List Value → Except Err (Option Value)
  | 0, _, _, _ => .error .fuel
  | fuel + 1, st, env, stack =>
      match nextInstr st with
      | Option.none => .ok Option.none
      | some (c, st2) =>
          match c with
          | .update binds =>
              match evalBinds fuel binds env with
              | .error e => .error e
              | .ok kvs =>
                  match envSetMany env kvs with
                  | .error e => .error e
                  | .ok env2 => drive fuel st2 env2 stack
          | .push d =>
              match calculate fuel d env with
              | .error e => .error e
              | .ok v => drive fuel st2 env (v :: stack)
          | .ret =>
              match stack with
              | v :: _ => .ok (some v)
              | [] => .error .indexMiss
          | .condition bs els =>
              match code_to_exec fuel env bs els with
              | .error e => .error e
              | .ok body => drive fuel { st2 with base := body ++ st2.base } env stack
          | .loop name src body =>
              match calculate fuel src env with
              | .error e => .error e
              | .ok v =>
                  match pyElems v with
                  | .error e => .error e
                  | .ok elems =>
                      let held2 :=
                        match st2.held, st2.slot with
                        | .inSlot, some old => Held.inOld old
                        | h, _ => h
                      drive fuel
                        { st2 with slot := some ⟨name, elems, body⟩, held := held2 }
                        env stack

/-- Fresh `CodeIter` over a function body. -/
def initState (code : List Code) : DState :=
  ⟨code, [], Option.none, .outside⟩

/-- Map the dispatcher outcome to the call result: a `ret` value, or `None`
when the stream was exhausted (py_dot.py line 228). -/
def finishCall (r : Except Err (Option Value)) : Except Err Value :=
  match r with
  | .error e => .error e
  | .ok (some v) => .ok v
  | .ok Option.none => .ok Value.none

/-- A `Function` (py_dot.py lines 137-275): name, declared parameter names
(already passed through `fix_self` at definition time), the optional
"unpack" tail names, the closure environment, and the instruction list. -/
structure Func : Type where
  name : String
  args : List String
  unpack : Option (List String)
  environ : Option Env
  code : List Code

/-- `fix_self` on declared parameter names (py_dot.py line 122). -/
def fixSelfArgs (args : List String) : List String :=
  args.map (fun s => if s = "self" then "$" else s)

/-- `kw.pop('self', udef)`: the popped value and the remaining entries
(keys are unique, so at most one entry matches). -/
def popSelf : List (String × Value) → Option (Value × List (String × Value))
  | [] => Option.none
  | p :: rest =>
      if p.1 == "self" then some (p.2, rest)
      else
        match popSelf rest with
        | some (v, r) => some (v, p :: r)
        | Option.none => Option.none

/-- `fix_self` on the keyword arguments of a call (py_dot.py
lines 125-128): pop `self` and store its value under `$`. -/
def fixSelfKw (kw : List (String × Value)) : List (String × Value) :=
  match popSelf kw with
  | Option.none => kw
  | some (v, r) => setD r "$" v

/-- `*args, unpack_args = args` (py_dot.py line 196): split off the final
positional argument; empty `args` is Python's `ValueError`. -/
def splitLast : List Value → Option (List Value × Value)
  | [] => Option.none
  | [a] => some ([], a)
  | a :: b :: rest =>
      match splitLast (b :: rest) with
      | some (i, l) => some (a :: i, l)
      | Option.none => Option.none

/-- The message of py_dot.py line 207. -/
def arityMsg (expected got : Nat) : String :=
  "Expected " ++ toString expected ++ " arguments, got " ++ toString got

/-- The message of py_dot.py line 200. -/
def unpackMsg (expected got : Nat) : String :=
  "Expected " ++ toString expected ++ " values to unpack, got " ++ toString got

/-- The arity check and binding of py_dot.py lines 204-210: the total of
remaining positional and keyword arguments must equal the declared
parameter count exactly, then positionals are zipped onto the parameter
names and keyword bindings are applied afterwards. -/
def finishBind (f : Func) (e : Env) (args : List Value)
    (kw : List (String × Value)) : Except Err Env :=
  let la := args.length + kw.length
  if f.args.length ≠ la then .error (.typeMismatch (arityMsg f.args.length la))
  else
    match envSetMany e (f.args.zip args) with
    | .error er => .error er
    | .ok e1 => envSetMany e1 kw

/-- The argument-processing prefix of `Function.__call__` (py_dot.py
lines 191-210): rename `self` in the call arguments, build the fresh child
environment of the closure, bind the unpack tail from the final positional
argument (whose length must equal the unpack-name count exactly), then
check the arity and bind the parameters. -/
def bindCallEnv (f : Func) (args0 : List Value) (kw0 : List (String × Value)) :
    Except Err Env :=
  let args1 := args0.map (fun v => if valueEq v (.str "self") then Value.str "$" else v)
  let kw := fixSelfKw kw0
  let e0 : Env := .mk [] f.environ
  match f.unpack with
  | Option.none => finishBind f e0 args1 kw
  | some unp =>
      match splitLast args1 with
      | Option.none => .error (.valueMiss "not enough values to unpack")
      | some (initArgs, lastArg) =>
          match pyLen lastArg with
          | .error er => .error er
          | .ok lu =>
              if unp.length ≠ lu then .error (.typeMismatch (unpackMsg unp.length lu))
              else
                match pyElems lastArg with
                | .error er => .error er
                | .ok elems =>
                    match envSetMany e0 (unp.zip elems) with
                    | .error er => .error er
                    | .ok e1 => finishBind f e1 initArgs kw

/-- `Function.__call__` (py_dot.py lines 191-228). -/
def Func.call (f : Func) (fuel : Nat) (args : List Value)
    (kw : List (String × Value)) : Except Err Value :=
  match bindCallEnv f args kw with
  | .error er => .error er
  | .ok e => finishCall (drive fuel (initState f.code) e [])

/-- A `Class` scope (py_dot.py lines 537-553): an environment used during
definition, plus the class name, base identifiers and the parent scope. -/
structure ClassScope : Type where
  d : List (String × Value)
  name : String
  bases : List String
  parent : Option Env

/-- `Class.end` (py_dot.py lines 548-553): materialize
`type(self.name, self.bases, self.d)` and, when a parent scope exists, bind
it there under the class name; returns the class value and the (possibly
updated) parent. -/
def classEnd (c : ClassScope) : Except Err (Value × Option Env) :=
  let cls := Value.cls c.name c.bases c.d
  match c.parent with
  | some p =>
      match envSetMany p [(c.name, cls)] with
      | .error e => .error e
      | .ok p2 => .ok (cls, some p2)
  | Option.none => .ok (cls, Option.none)

/-- Shorthand: a deferred variable reference (`var.x`). -/
def dvar (n : String) : Dat := .expr (.var n)

/-- Shorthand: a deferred addition. -/
def dadd (a b : Dat) : Dat := .expr (.add a b)

/-- Shorthand: a deferred power. -/
def dpow (a b : Dat) : Dat := .expr (.pow a b)

/-- Shorthand: a deferred equality comparison. -/
def deq (a b : Dat) : Dat := .expr (.eq a b)

/-- Shorthand: a concrete integer payload. -/
def dint (n : Int) : Dat := .val (.int n)

/-- Instructions that touch neither the base stream nor the loop slot
(every opcode except `condition` and `loop`). -/
def isSimple : Code → Bool
  | .update _ => true
  | .push _ => true
  | .ret => true
  | _ => false

/-- The instruction sequence a `LoopIter` feeds the dispatcher: for each
source element in order, the instruction "bind the loop variable to this
element" prepended to the loop body (py_dot.py lines 369-371). -/
def loopBlocks : String → List Value → List Code → List Code
  | _, [], _ => []
  | n, v :: rest, body =>
      (Code.update [(n, Dat.val v)] :: body) ++ loopBlocks n rest body

/-- A name misses the local bindings (with a `KeyError`) of every
environment along the parent chain. -/
def absentAll : Env → String → Bool
  | .mk d parent, n =>
      (match real_attribute_get d n with
       | .error (.keyMiss _) => true
       | _ => false) &&
      (match parent with
       | some p => absentAll p n
       | Option.none => true)

/-- The `if/elif/else` test function of py_dot.py lines 613-621:
`foo(x, y): if x: ret x+y; elif x == None: ret y+1; else: ret y`. -/
def condFoo : Func :=
  { name := "foo", args := ["x", "y"], unpack := Option.none,
    environ := Option.none,
    code := [Code.condition
      [(dvar "x", [Code.push (dadd (dvar "x") (dvar "y")), Code.ret]),
       (deq (dvar "x") (.val .none),
        [Code.push (dadd (dvar "y") (dint 1)), Code.ret])]
      [Code.push (dvar "y"), Code.ret]] }

/-- The loop test function of py_dot.py lines 629-635, with the body
returning `w` itself: `bar(x): w = 0; for i in x: w = w + i ** 2; ret w`. -/
def barFn : Func :=
  { name := "bar", args := ["x"], unpack := Option.none,
    environ := Option.none,
    code := [Code.update [("w", dint 0)],
             Code.loop "i" (dvar "x")
               [Code.update [("w", dadd (dvar "w") (dpow (dvar "i") (dint 2)))]],
             Code.push (dvar "w"), Code.ret] }

/-- A function that reads the loop variable after the loop has finished:
`lp(x): for i in x: pass; ret i`. -/
def loopFn : Func :=
  { name := "lp", args := ["x"], unpack := Option.none,
    environ := Option.none,
    code := [Code.loop "i" (dvar "x") [],
             Code.push (dvar "i"), Code.ret] }

/-- A two-parameter function returning its second parameter:
`f(x, y): ret y`. -/
def retYFn : Func :=
  { name := "f", args := ["x", "y"], unpack := Option.none,
    environ := Option.none,
    code := [Code.push (dvar "y"), Code.ret] }

/-- A two-parameter function returning its first parameter:
`f(x, y): ret x`. -/
def retXFn : Func :=
  { name := "f", args := ["x", "y"], unpack := Option.none,
    environ := Option.none,
    code := [Code.push (dvar "x"), Code.ret] }

/-- An unpack function, as the Lambda of py_dot.py lines 601-607:
`u(a, (b, c)): ret b + c`. -/
def unpackFn : Func :=
  { name := "u", args := ["a"], unpack := some ["b", "c"],
    environ := Option.none,
    code := [Code.push (dadd (dvar "b") (dvar "c")), Code.ret] }

/-- A function whose body never reaches a `ret`:
`n(x): y = x`. -/
def noRetFn : Func :=
  { name := "n", args := ["x"], unpack := Option.none,
    environ := Option.none,
    code := [Code.update [("y", dvar "x")]] }

/-- Reducing a concrete (non-deferred) payload returns it unchanged, for any
fuel. -/
theorem calculate_val (fuel : Nat) (v : Value) (env : Env) :
    calculate fuel (.val v) env = .ok v := rfl

/-- Storing the same key/value twice leaves the dictionary unchanged the
second time. -/
theorem setD_setD : ∀ (d : List (String × Value)) (k : String) (v : Value),
    setD (setD d k v) k v = setD d k v := by
  intro d k v
  induction d with
  | nil => simp [setD]
  | cons p rest ih =>
    cases hpk : p.1 == k with
    | true => simp [setD, hpk]
    | false => simp [setD, hpk, ih]

/-- A lookup after a store finds the stored value. -/
theorem lookupD_setD : ∀ (d : List (String × Value)) (k : String) (v : Value),
    lookupD (setD d k v) k = some v := by
  intro d k v
  induction d with
  | nil => simp [setD, lookupD]
  | cons p rest ih =>
    cases hpk : p.1 == k with
    | true => simp [setD, lookupD, hpk]
    | false => simp [setD, lookupD, hpk, ih]

/-- Storing an absent key appends it. -/
theorem setD_append : ∀ (d : List (String × Value)) (k : String) (v : Value),
    lookupD d k = Option.none → setD d k v = d ++ [(k, v)] := by
  intro d k v h
  induction d with
  | nil => rfl
  | cons p rest ih =>
    simp only [lookupD] at h
    cases hpk : p.1 == k with
    | true => rw [hpk] at h; simp at h
    | false =>
      rw [hpk] at h; simp only [Bool.false_eq_true, if_false] at h
      simp [setD, hpk, ih h]

/-- Popping `self` removes exactly one entry. -/
theorem popSelf_length : ∀ (kw : List (String × Value)) (v : Value)
    (r : List (String × Value)), popSelf kw = some (v, r) →
    r.length + 1 = kw.length := by
  intro kw
  induction kw with
  | nil => intro v r h; simp [popSelf] at h
  | cons p rest ih =>
    intro v r h
    simp only [popSelf] at h
    cases hpk : p.1 == "self" with
    | true => rw [hpk] at h; simp at h; obtain ⟨h1, h2⟩ := h; subst h2; simp
    | false =>
      rw [hpk] at h; simp only [Bool.false_eq_true, if_false] at h
      cases hps : popSelf rest with
      | none => rw [hps] at h; simp at h
      | some vr =>
        rw [hps] at h
        obtain ⟨v2, r2⟩ := vr
        simp at h
        obtain ⟨h1, h2⟩ := h
        subst h1 h2
        simp only [List.length_cons]
        rw [← ih v2 r2 hps]

/-- Popping `self` does not create a key that was absent before. -/
theorem popSelf_lookup : ∀ (kw : List (String × Value)) (v : Value)
    (r : List (String × Value)) (k : String), popSelf kw = some (v, r) →
    lookupD kw k = Option.none → lookupD r k = Option.none := by
  intro kw
  induction kw with
  | nil => intro v r k h; simp [popSelf] at h
  | cons p rest ih =>
    intro v r k h hl
    simp only [popSelf] at h
    simp only [lookupD] at hl
    cases hpk : p.1 == "self" with
    | true =>
      rw [hpk] at h; simp at h
      obtain ⟨h1, h2⟩ := h; subst h2
      cases hk : p.1 == k with
      | true => rw [hk] at hl; simp at hl
      | false => rw [hk] at hl; simpa using hl
    | false =>
      rw [hpk] at h; simp only [Bool.false_eq_true, if_false] at h
      cases hps : popSelf rest with
      | none => rw [hps] at h; simp at h
      | some vr =>
        rw [hps] at h
        obtain ⟨v2, r2⟩ := vr
        simp at h
        obtain ⟨h1, h2⟩ := h
        subst h1 h2
        cases hk : p.1 == k with
        | true => rw [hk] at hl; simp at hl
        | false =>
          rw [hk] at hl; simp only [Bool.false_eq_true, if_false] at hl
          simp only [lookupD, hk, Bool.false_eq_true, if_false]
          exact ih v2 r2 k hps hl

/-- When no caller passes a keyword literally named `$`, the `self -> $`
keyword fix preserves the keyword count. -/
theorem fixSelfKw_length : ∀ (kw : List (String × Value)),
    lookupD kw "$" = Option.none → (fixSelfKw kw).length = kw.length := by
  intro kw h
  unfold fixSelfKw
  cases hp : popSelf kw with
  | none => rfl
  | some vr =>
    obtain ⟨v, r⟩ := vr
    dsimp only
    rw [setD_append r "$" v (popSelf_lookup kw v r "$" hp h), List.length_append]
    have h2 := popSelf_length kw v r hp
    simpa using h2

/-- Only the string value `"self"` tests equal to `"self"` under Python
equality. -/
theorem valueEq_strSelf : ∀ (a : Value), valueEq a (.str "self") = true →
    a = Value.str "self" := by
  intro a h
  cases a <;> simp [valueEq] at h ⊢
  exact h

/-- The `self -> $` rename of positional argument values is the identity
when no argument is the string `"self"`. -/
theorem renameVals_id : ∀ (args : List Value), Value.str "self" ∉ args →
    args.map (fun v => if valueEq v (.str "self") then Value.str "$" else v)
      = args := by
  intro args h
  induction args with
  | nil => rfl
  | cons a rest ih =>
    rw [List.mem_cons, not_or] at h
    simp only [List.map_cons]
    cases hv : valueEq a (.str "self") with
    | true => exact absurd (valueEq_strSelf a hv).symm h.1
    | false => simp only [Bool.false_eq_true, if_false]; rw [ih h.2]

/-- `len` agrees with the number of elements `iter` yields. -/
theorem pyLen_of_pyElems : ∀ (v : Value) (elems : List Value),
    pyElems v = .ok elems → pyLen v = .ok elems.length := by
  intro v elems h
  cases v with
  | int n => simp [pyElems] at h
  | str s =>
    simp only [pyElems, Except.ok.injEq] at h
    subst h
    simp only [pyLen, List.length_map]
    rfl
  | none => simp [pyElems] at h
  | list l =>
    simp only [pyElems, Except.ok.injEq] at h
    subst h
    rfl
  | obj fs => simp [pyElems] at h
  | cls n b f => simp [pyElems] at h

/-- Applying the same attribute-path store twice is idempotent. -/
theorem pySetPath_idem : ∀ (gs : List String) (obj : Value) (setter : String)
    (v obj2 : Value), pySetPath obj gs setter v = .ok obj2 →
    pySetPath obj2 gs setter v = .ok obj2 := by
  intro gs
  induction gs with
  | nil =>
    intro obj setter v obj2 h
    cases obj with
    | obj fields =>
      simp only [pySetPath, Except.ok.injEq] at h
      subst h
      simp only [pySetPath, setD_setD]
    | cls nm bs fields =>
      simp only [pySetPath, Except.ok.injEq] at h
      subst h
      simp only [pySetPath, setD_setD]
    | int n => simp [pySetPath] at h
    | str s => simp [pySetPath] at h
    | none => simp [pySetPath] at h
    | list l => simp [pySetPath] at h
  | cons g gs ih =>
    intro obj setter v obj2 h
    cases obj with
    | obj fields =>
      simp only [pySetPath] at h
      cases hl : lookupD fields g with
      | none => rw [hl] at h; simp at h
      | some inner =>
        rw [hl] at h
        dsimp only at h
        cases hp : pySetPath inner gs setter v with
        | error e => rw [hp] at h; simp at h
        | ok inner2 =>
          rw [hp] at h
          simp only [Except.ok.injEq] at h
          subst h
          simp only [pySetPath, lookupD_setD]
          rw [ih inner setter v inner2 hp]
          simp only [setD_setD]
    | cls nm bs fields =>
      simp only [pySetPath] at h
      cases hl : lookupD fields g with
      | none => rw [hl] at h; simp at h
      | some inner =>
        rw [hl] at h
        dsimp only at h
        cases hp : pySetPath inner gs setter v with
        | error e => rw [hp] at h; simp at h
        | ok inner2 =>
          rw [hp] at h
          simp only [Except.ok.injEq] at h
          subst h
          simp only [pySetPath, lookupD_setD]
          rw [ih inner setter v inner2 hp]
          simp only [setD_setD]
    | int n => simp [pySetPath] at h
    | str s => simp [pySetPath] at h
    | none => simp [pySetPath] at h
    | list l => simp [pySetPath] at h

/-- `real_attribute` stores are idempotent: re-applying a successful store
returns the stored dictionary unchanged. -/
theorem ras_idem : ∀ (d : List (String × Value)) (k : String) (v : Value)
    (d2 : List (String × Value)), real_attribute_set d k v = .ok d2 →
    real_attribute_set d2 k v = .ok d2 := by
  intro d k v d2 h
  simp only [real_attribute_set] at h ⊢
  cases hlit : literalKey (fixAttr k) (segs (fixAttr k)) with
  | true =>
    rw [hlit] at h
    simp only [if_true] at h
    simp only [Except.ok.injEq] at h
    subst h
    simp only [if_true, setD_setD]
  | false =>
    rw [hlit] at h
    simp only [Bool.false_eq_true, if_false] at h
    simp only [Bool.false_eq_true, if_false]
    cases hn : segs (fixAttr k) with
    | nil => rw [hn] at h; simp at h
    | cons n0 restNames =>
      rw [hn] at h
      dsimp only at h
      cases hlk : lookupD d (if n0 = "self" then "$" else n0) with
      | none => rw [hlk] at h; simp at h
      | some obj =>
        rw [hlk] at h
        dsimp only at h
        cases hf : fixNames restNames with
        | error e => rw [hf] at h; simp at h
        | ok fixed =>
          rw [hf] at h
          dsimp only at h
          cases hgl : fixed.getLast? with
          | none => rw [hgl] at h; simp at h
          | some setter =>
            rw [hgl] at h
            dsimp only at h
            cases hsp : pySetPath obj fixed.dropLast setter v with
            | error e => rw [hsp] at h; simp at h
            | ok obj2 =>
              rw [hsp] at h
              simp only [Except.ok.injEq] at h
              subst h
              dsimp only
              rw [lookupD_setD]
              dsimp only
              rw [hf]
              dsimp only
              rw [hgl]
              dsimp only
              rw [pySetPath_idem fixed.dropLast obj setter v obj2 hsp]
              dsimp only
              rw [setD_setD]

/-- `Environment.set` of a single binding is idempotent. -/
theorem envSetMany_idem : ∀ (p : Env) (k : String) (x : Value) (p2 : Env),
    envSetMany p [(k, x)] = .ok p2 → envSetMany p2 [(k, x)] = .ok p2 := by
  intro p k x p2 h
  cases p with
  | mk d par =>
    simp only [envSetMany, setManyD] at h
    cases hs : real_attribute_set d k x with
    | error e => rw [hs] at h; simp at h
    | ok d2 =>
      rw [hs] at h
      simp only [Except.ok.injEq] at h
      subst h
      simp only [envSetMany, setManyD]
      rw [ras_idem d k x d2 hs]

/-- A name that misses (with a `KeyError`) every environment along the
parent chain makes the lookup fail with `AttributeError`. -/
theorem absentAll_spec : ∀ (env : Env) (n : String), absentAll env n = true →
    envGetattr env n = .error (.attrMiss n)
  | .mk d Option.none, n, h => by
    simp only [absentAll, Bool.and_eq_true] at h
    obtain ⟨h1, h2⟩ := h
    simp only [envGetattr]
    cases hg : real_attribute_get d n with
    | ok v => rw [hg] at h1; simp at h1
    | error e =>
      rw [hg] at h1
      cases e with
      | keyMiss k => rfl
      | typeMismatch m => simp at h1
      | attrMiss k => simp at h1
      | valueMiss m => simp at h1
      | indexMiss => simp at h1
      | stopIter => simp at h1
      | fuel => simp at h1
  | .mk d (some p), n, h => by
    simp only [absentAll, Bool.and_eq_true] at h
    obtain ⟨h1, h2⟩ := h
    simp only [envGetattr]
    cases hg : real_attribute_get d n with
    | ok v => rw [hg] at h1; simp at h1
    | error e =>
      rw [hg] at h1
      cases e with
      | keyMiss k => exact absentAll_spec p n h2
      | typeMismatch m => simp at h1
      | attrMiss k => simp at h1
      | valueMiss m => simp at h1
      | indexMiss => simp at h1
      | stopIter => simp at h1
      | fuel => simp at h1

/-- An exhausted `LoopIter` left in the slot is invisible: the dispatcher
behaves exactly as with no loop registered. -/
theorem drive_exh : ∀ (fuel : Nat) (b : List Code) (n : String) (bd : List Code)
    (env : Env) (stack : List Value),
    drive fuel ⟨b, [], some ⟨n, [], bd⟩, .outside⟩ env stack
      = drive fuel ⟨b, [], Option.none, .outside⟩ env stack := by
  intro fuel
  induction fuel with
  | zero => intro b n bd env stack; rfl
  | succ fuel ih =>
    intro b n bd env stack
    cases b with
    | nil => rfl
    | cons c cs =>
      cases c with
      | update binds =>
        simp only [drive, nextInstr, emitBase]
        cases evalBinds fuel binds env with
        | error e => rfl
        | ok kvs =>
          dsimp only
          cases envSetMany env kvs with
          | error e => rfl
          | ok env2 => exact ih cs n bd env2 stack
      | push d =>
        simp only [drive, nextInstr, emitBase]
        cases calculate fuel d env with
        | error e => rfl
        | ok v => exact ih cs n bd env (v :: stack)
      | ret => rfl
      | condition bs els =>
        simp only [drive, nextInstr, emitBase]
        cases code_to_exec fuel env bs els with
        | error e => rfl
        | ok body => exact ih (body ++ cs) n bd env stack
      | loop name src body =>
        simp only [drive, nextInstr, emitBase]

/-- Running with an active `LoopIter` is the same as running the flattened
per-element blocks (bind-variable `update` followed by the body, once per
remaining element in order) spliced before the base stream, for loop bodies
free of nested control instructions. -/
theorem drive_loop_flatten : ∀ (fuel : Nat) (h : Held) (b ch : List Code)
    (name : String) (elems : List Value) (body : List Code) (env : Env)
    (stack : List Value),
    (h = .inSlot ∨ h = .outside) →
    body.all isSimple = true → ch.all isSimple = true →
    drive fuel ⟨b, ch, some ⟨name, elems, body⟩, h⟩ env stack
      = drive fuel ⟨ch ++ (loopBlocks name elems body ++ b), [], Option.none, .outside⟩
          env stack := by
  intro fuel
  induction fuel with
  | zero => intros; rfl
  | succ fuel ih =>
    intro h b ch name elems body env stack hh hbody hch
    cases ch with
    | cons c cs =>
      rw [List.all_cons, Bool.and_eq_true] at hch
      cases c with
      | update binds =>
        simp only [drive, nextInstr, emitBase, List.cons_append]
        cases evalBinds fuel binds env with
        | error e => rfl
        | ok kvs =>
          dsimp only
          cases envSetMany env kvs with
          | error e => rfl
          | ok env2 => exact ih h b cs name elems body env2 stack hh hbody hch.2
      | push d =>
        simp only [drive, nextInstr, emitBase, List.cons_append]
        cases calculate fuel d env with
        | error e => rfl
        | ok v => exact ih h b cs name elems body env (v :: stack) hh hbody hch.2
      | ret => rfl
      | condition bs els => simp [isSimple] at hch
      | loop n2 s2 b2 => simp [isSimple] at hch
    | nil =>
      cases elems with
      | cons e rest =>
        rcases hh with hh | hh <;> subst hh <;>
        · simp only [drive, nextInstr, emitBase, loopBlocks, List.cons_append,
            List.nil_append, List.append_assoc, evalBinds, calculate]
          try dsimp only
          cases envSetMany env [(name, e)] with
          | error e2 => rfl
          | ok env2 =>
            try dsimp only
            exact ih .inSlot b body name rest body env2 stack (Or.inl rfl) hbody hbody
      | nil =>
        rcases hh with hh | hh <;> subst hh <;>
        · cases b with
          | nil => rfl
          | cons c cs =>
            cases c with
            | update binds =>
              simp only [drive, nextInstr, emitBase, loopBlocks, List.nil_append]
              cases evalBinds fuel binds env with
              | error e2 => rfl
              | ok kvs =>
                dsimp only
                cases envSetMany env kvs with
                | error e2 => rfl
                | ok env2 => exact drive_exh fuel cs name body env2 stack
            | push d =>
              simp only [drive, nextInstr, emitBase, loopBlocks, List.nil_append]
              cases calculate fuel d env with
              | error e2 => rfl
              | ok v => exact drive_exh fuel cs name body env (v :: stack)
            | ret => rfl
            | condition bs els =>
              simp only [drive, nextInstr, emitBase, loopBlocks, List.nil_append]
              cases code_to_exec fuel env bs els with
              | error e2 => rfl
              | ok body2 => exact drive_exh fuel (body2 ++ cs) name body env stack
            | loop n2 s2 b2 =>
              simp only [drive, nextInstr, emitBase, loopBlocks, List.nil_append]

/-- C1: Calling a Function with a total argument count (positional plus
keyword) different from the declared parameter count fails with the Arity
`TypeError` of py_dot.py line 207 rather than silently truncating; with an
unpack tail, the final positional argument must have length equal to the
unpack-name count exactly, else the call fails with the Arity `TypeError`
of line 200, and otherwise its elements are bound individually (each unpack
name zipped to its element) before the remaining positional-plus-keyword
count is checked against the declared parameter count. -/
theorem c1_arity :
    (∀ (f : Func) (fuel : Nat) (args : List Value) (kw : List (String × Value)),
      f.unpack = Option.none →
      lookupD kw "$" = Option.none →
      args.length + kw.length ≠ f.args.length →
      f.call fuel args kw
        = .error (.typeMismatch (arityMsg f.args.length (args.length + kw.length))))
  ∧ (∀ (f : Func) (unp : List String) (fuel : Nat) (args initA : List Value)
      (lastA : Value) (lu : Nat) (kw : List (String × Value)),
      f.unpack = some unp →
      Value.str "self" ∉ args →
      splitLast args = some (initA, lastA) →
      pyLen lastA = .ok lu →
      unp.length ≠ lu →
      f.call fuel args kw = .error (.typeMismatch (unpackMsg unp.length lu)))
  ∧ (∀ (f : Func) (unp : List String) (fuel : Nat) (args initA : List Value)
      (lastA : Value) (elems : List Value) (kw : List (String × Value)) (e1 : Env),
      f.unpack = some unp →
      Value.str "self" ∉ args →
      lookupD kw "$" = Option.none →
      splitLast args = some (initA, lastA) →
      pyElems lastA = .ok elems →
      unp.length = elems.length →
      envSetMany (.mk [] f.environ) (unp.zip elems) = .ok e1 →
      initA.length + kw.length ≠ f.args.length →
      f.call fuel args kw
        = .error (.typeMismatch (arityMsg f.args.length (initA.length + kw.length))))
  ∧ (∀ (f : Func) (unp : List String) (fuel : Nat) (args initA : List Value)
      (lastA : Value) (elems : List Value) (kw : List (String × Value)) (e1 : Env),
      f.unpack = some unp →
      Value.str "self" ∉ args →
      splitLast args = some (initA, lastA) →
      pyElems lastA = .ok elems →
      unp.length = elems.length →
      envSetMany (.mk [] f.environ) (unp.zip elems) = .ok e1 →
      bindCallEnv f args kw = finishBind f e1 initA (fixSelfKw kw))
  ∧ (∀ (x y z : Int) (fuel : Nat),
      unpackFn.call (fuel + 2) [.int x, .list [.int y, .int z]] []
        = .ok (.int (y + z))) := by
  refine ⟨?_, ?_, ?_, ?_, ?_⟩
  · intro f fuel args kw hu hk hne
    simp only [Func.call, bindCallEnv, hu, finishBind]
    simp only [List.length_map, fixSelfKw_length kw hk]
    rw [if_pos (Ne.symm hne)]
  · intro f unp fuel args initA lastA lu kw hu hs hsplit hlen hne
    simp only [Func.call, bindCallEnv, hu, renameVals_id args hs, hsplit]
    try dsimp only
    rw [hlen]
    try dsimp only
    rw [if_pos hne]
  · intro f unp fuel args initA lastA elems kw e1 hu hs hk hsplit hel hlen hbind hne
    simp only [Func.call, bindCallEnv, hu, renameVals_id args hs, hsplit]
    try dsimp only
    rw [pyLen_of_pyElems lastA elems hel]
    try dsimp only
    rw [if_neg (fun hcon => hcon hlen)]
    rw [hel]
    try dsimp only
    rw [hbind]
    try dsimp only
    simp only [finishBind, fixSelfKw_length kw hk]
    rw [if_pos (Ne.symm hne)]
  · intro f unp fuel args initA lastA elems kw e1 hu hs hsplit hel hlen hbind
    simp only [bindCallEnv, hu, renameVals_id args hs, hsplit]
    try dsimp only
    rw [pyLen_of_pyElems lastA elems hel]
    try dsimp only
    rw [if_neg (fun hcon => hcon hlen)]
    rw [hel]
    try dsimp only
    rw [hbind]
  · intro x y z fuel
    rfl

/-- Witness for C1: a call of the two-parameter `retYFn` with three
positional arguments raises the Arity error, and a call of `unpackFn`
(unpack names `b, c`) whose final positional argument has three elements
raises the unpack Arity error. -/
theorem c1_arity_witness :
    retYFn.call 9 [.int 1, .int 2, .int 3] []
      = .error (.typeMismatch "Expected 2 arguments, got 3")
  ∧ unpackFn.call 9 [.int 9, .list [.int 3, .int 4, .int 5]] []
      = .error (.typeMismatch "Expected 2 values to unpack, got 3") := by
  constructor
  · exact c1_arity.1 retYFn 9 [.int 1, .int 2, .int 3] [] rfl rfl (by decide)
  · exact c1_arity.2.1 unpackFn ["b", "c"] 9 [.int 9, .list [.int 3, .int 4, .int 5]]
      [.int 9] (.list [.int 3, .int 4, .int 5]) 3 [] rfl (by simp) rfl rfl (by decide)

/-- C2: A `ret` instruction terminates the dispatcher immediately with the
most recently pushed value — the instructions after it never run (the
trailing `rest` is arbitrary); a second `push` before a `ret` supersedes
the first, so the call returns the second pushed value; and when the
instruction stream is exhausted without reaching a `ret`, the call result
is `None` (py_dot.py line 228; the repository targets Python 3.0+, where
`StopIteration` from `next(self.code)` ends the `CodeIter` generator). -/
theorem c2_dispatch :
    (∀ (fuel : Nat) (env : Env) (stack : List Value) (d : Dat) (rest : List Code)
       (v : Value),
      calculate (fuel + 1) d env = .ok v →
      drive (fuel + 2) (initState (Code.push d :: Code.ret :: rest)) env stack
        = .ok (some v))
  ∧ (∀ (fuel : Nat) (env : Env) (stack : List Value) (v1 v2 : Value)
       (rest : List Code),
      drive (fuel + 3)
          (initState (Code.push (.val v1) :: Code.push (.val v2) :: Code.ret :: rest))
          env stack
        = .ok (some v2))
  ∧ (∀ (f : Func) (fuel : Nat) (args : List Value) (kw : List (String × Value))
       (e : Env),
      bindCallEnv f args kw = .ok e →
      drive fuel (initState f.code) e [] = .ok Option.none →
      f.call fuel args kw = .ok Value.none) := by
  refine ⟨?_, ?_, ?_⟩
  · intro fuel env stack d rest v hcalc
    simp only [initState, drive, nextInstr, emitBase]
    rw [hcalc]
  · intro fuel env stack v1 v2 rest
    rfl
  · intro f fuel args kw e h1 h2
    simp only [Func.call, h1]
    rw [h2]
    rfl

/-- Witness for C2: pushing `7` then returning yields `7` regardless of the
(empty) tail, and calling the ret-less `noRetFn` yields `None`. -/
theorem c2_dispatch_witness :
    drive 2 (initState [Code.push (dint 7), Code.ret]) (.mk [] Option.none) []
      = .ok (some (.int 7))
  ∧ noRetFn.call 5 [.int 3] [] = .ok Value.none := by
  constructor
  · exact c2_dispatch.1 0 (.mk [] Option.none) [] (dint 7) [] (.int 7) rfl
  · exact c2_dispatch.2.2 noRetFn 5 [.int 3] [] (.mk [("x", .int 3)] Option.none) rfl rfl

/-- C3: Condition predicates are reduced against the calling environment in
declared order; the first truthy predicate selects its body, a falsy
predicate passes control to the remaining branches, and the default body is
selected when no branch remains; the dispatcher splices the selected body
before the rest of the stream.  Concretely, for `condFoo` — predicates
`[x, x == None]`, bodies `[ret(x+y), ret(y+1)]`, default `ret(y)` — calling
with `(30, 12)` returns `42`, with `(None, 41)` returns `42` (second
branch), and with `([], 42)` returns `42` (default). -/
theorem c3_condition :
    (∀ (fuel : Nat) (env : Env) (p : Dat) (body : List Code)
       (rest : List (Dat × List Code)) (els : List Code) (v : Value),
      calculate fuel p env = .ok v → truthy v = true →
      code_to_exec fuel env ((p, body) :: rest) els = .ok body)
  ∧ (∀ (fuel : Nat) (env : Env) (p : Dat) (body : List Code)
       (rest : List (Dat × List Code)) (els : List Code) (v : Value),
      calculate fuel p env = .ok v → truthy v = false →
      code_to_exec fuel env ((p, body) :: rest) els = code_to_exec fuel env rest els)
  ∧ (∀ (fuel : Nat) (env : Env) (els : List Code),
      code_to_exec fuel env [] els = .ok els)
  ∧ (∀ (fuel : Nat) (env : Env) (stack : List Value) (bs : List (Dat × List Code))
       (els b body2 : List Code),
      code_to_exec fuel env bs els = .ok body2 →
      drive (fuel + 1) (initState (Code.condition bs els :: b)) env stack
        = drive fuel (initState (body2 ++ b)) env stack)
  ∧ condFoo.call 30 [.int 30, .int 12] [] = .ok (.int 42)
  ∧ condFoo.call 30 [.none, .int 41] [] = .ok (.int 42)
  ∧ condFoo.call 30 [.list [], .int 42] [] = .ok (.int 42) := by
  refine ⟨?_, ?_, ?_, ?_, rfl, rfl, rfl⟩
  · intro fuel env p body rest els v hcalc ht
    simp only [code_to_exec, hcalc, ht, if_true]
  · intro fuel env p body rest els v hcalc ht
    simp only [code_to_exec, hcalc, ht, Bool.false_eq_true, if_false]
  · intro fuel env els
    rfl
  · intro fuel env stack bs els b body2 hsel
    simp only [initState, drive, nextInstr, emitBase]
    rw [hsel]

/-- Witness for C3: a truthy constant predicate selects its own body, and
the dispatcher splices the selected body before the remaining stream. -/
theorem c3_condition_witness :
    code_to_exec 5 (.mk [] Option.none) [(dint 1, [Code.ret])] [] = .ok [Code.ret]
  ∧ drive 4 (initState [Code.condition [(dint 1, [Code.push (dint 3), Code.ret])] []])
        (.mk [] Option.none) []
      = drive 3 (initState ([Code.push (dint 3), Code.ret] ++ []))
          (.mk [] Option.none) [] := by
  constructor
  · exact c3_condition.1 5 (.mk [] Option.none) (dint 1) [Code.ret] [] [] (.int 1) rfl rfl
  · exact c3_condition.2.2.2.1 3 (.mk [] Option.none) []
      [(dint 1, [Code.push (dint 3), Code.ret])] [] [] [Code.push (dint 3), Code.ret] rfl

/-- C4: On activation the loop source is reduced once to its element list
(the single `calculate` hypothesis), and executing the Loop equals
executing, for each source element in order, the instruction "bind the loop
variable to this element" prepended to the body (`loopBlocks`), spliced
before the rest of the stream — stated for bodies free of nested control
instructions, the shape the claim exercises.  Concretely `bar(x): w = 0;
for i in x: w = w + i ** 2; ret w` called with `[1, 2, 3, 4]` returns `30`. -/
theorem c4_loop :
    (∀ (fuel : Nat) (name : String) (src : Dat) (body rest : List Code)
       (env : Env) (stack : List Value) (elems : List Value),
      body.all isSimple = true →
      calculate fuel src env = .ok (.list elems) →
      drive (fuel + 1) (initState (Code.loop name src body :: rest)) env stack
        = drive fuel (initState (loopBlocks name elems body ++ rest)) env stack)
  ∧ barFn.call 60 [.list [.int 1, .int 2, .int 3, .int 4]] [] = .ok (.int 30) := by
  refine ⟨?_, rfl⟩
  intro fuel name src body rest env stack elems hbody hcalc
  simp only [initState, drive, nextInstr, emitBase]
  rw [hcalc]
  dsimp only [pyElems]
  exact drive_loop_flatten fuel .outside rest [] name elems body env stack
    (Or.inr rfl) hbody rfl

/-- Witness for C4: activating a loop over the one-element list bound to
`x` flattens to the corresponding single bind block. -/
theorem c4_loop_witness :
    drive 10 (initState [Code.loop "i" (dvar "x") []])
        (.mk [("x", .list [.int 1])] Option.none) []
      = drive 9 (initState (loopBlocks "i" [.int 1] [] ++ []))
          (.mk [("x", .list [.int 1])] Option.none) [] := by
  exact c4_loop.1 9 "i" (dvar "x") [] [] (.mk [("x", .list [.int 1])] Option.none) []
    [.int 1] rfl rfl

/-- Counterexample to C5 as stated: the loop variable is still bound in the
enclosing Function-call Environment after the Loop finishes — `lp(x): for i
in x: pass; ret i` called with `[1, 2, 3]` returns `3`, whereas a
per-iteration child Environment discarded at iteration end would leave `i`
unbound (a Name-not-found failure). -/
theorem c5_cex : loopFn.call 20 [.list [.int 1, .int 2, .int 3]] [] = .ok (.int 3) := rfl

/-- C5 (amended): each Loop iteration step executes the instruction "bind
the loop variable to this element" directly in the enclosing Function-call
Environment — the same environment, updated in place, flows on — no
per-iteration child Environment is created, and the loop-variable binding
persists after the Loop finishes (reading `i` after a loop over `[5, 9]`
yields `9`). -/
theorem c5_loop_env :
    (∀ (fuel : Nat) (b : List Code) (name : String) (v : Value) (rest : List Value)
       (body : List Code) (env env2 : Env) (stack : List Value),
      envSetMany env [(name, v)] = .ok env2 →
      drive (fuel + 1) ⟨b, [], some ⟨name, v :: rest, body⟩, .outside⟩ env stack
        = drive fuel ⟨b, body, some ⟨name, rest, body⟩, .inSlot⟩ env2 stack)
  ∧ loopFn.call 20 [.list [.int 5, .int 9]] [] = .ok (.int 9) := by
  refine ⟨?_, rfl⟩
  intro fuel b name v rest body env env2 stack hset
  simp only [drive, nextInstr, emitBase, evalBinds, calculate]
  try dsimp only
  rw [hset]

/-- Witness for C5 (amended): one iteration step over `[1]` binds `i` in
the very environment of the enclosing call. -/
theorem c5_loop_env_witness :
    drive 3 ⟨[], [], some ⟨"i", [.int 1], []⟩, .outside⟩ (.mk [] Option.none) []
      = drive 2 ⟨[], [], some ⟨"i", [], []⟩, .inSlot⟩
          (.mk [("i", .int 1)] Option.none) [] := by
  exact c5_loop_env.1 2 [] "i" (.int 1) [] [] (.mk [] Option.none)
    (.mk [("i", .int 1)] Option.none) [] rfl

/-- Counterexample to C6 as stated: the name `___a__` starts and ends with
the separator `__` (and is neither a single segment nor the self-marker),
yet `Environment.set` does not use it as a literal key — it decodes it as a
path through the binding named `_` and fails with `KeyError('_')` on an
empty environment. -/
theorem c6_cex :
    real_attribute_set [] "___a__" (.int 1) = .error (.keyMiss "_")
  ∧ List.IsPrefix "__".data "___a__".data
  ∧ List.IsSuffix "__".data "___a__".data
  ∧ "___a__" ≠ "$"
  ∧ (segs "___a__").length = 3 := by
  refine ⟨rfl, by decide, by decide, by decide, rfl⟩

/-- C6 (amended): `Environment.set` decodes binding names by the path rule:
`set(a__b=1)` where `a` is a pre-existing object in the bindings sets
attribute `b` on that object (no intermediate scope is created);
`set(_a=1)` sets the literal key `_a`; `set(__foo__=1)` sets the literal
key `__foo__` unmodified; and a name is always used as a literal key when
it is the distinguished self-marker, or its first regex segment starts with
the separator while its last segment is exactly the separator, or it has
exactly one segment. -/
theorem c6_path :
    (∀ (d : List (String × Value)) (attr : String) (v : Value),
      (fixAttr attr = "$" ∨
       (startsUU ((segs (fixAttr attr)).headD "") = true ∧
        (segs (fixAttr attr)).getLastD "" = "__") ∨
       (segs (fixAttr attr)).length = 1) →
      real_attribute_set d attr v = .ok (setD d (fixAttr attr) v))
  ∧ (∀ (fs : List (String × Value)) (v : Value),
      real_attribute_set [("a", .obj fs)] "a__b" v = .ok [("a", .obj (setD fs "b" v))])
  ∧ (∀ (v : Value), real_attribute_set [] "_a" v = .ok [("_a", v)])
  ∧ (∀ (v : Value), real_attribute_set [] "__foo__" v = .ok [("__foo__", v)]) := by
  refine ⟨?_, ?_, ?_, ?_⟩
  · intro d attr v hcond
    have hl : literalKey (fixAttr attr) (segs (fixAttr attr)) = true := by
      simp only [literalKey, Bool.or_eq_true, beq_iff_eq]
      rcases hcond with h1 | ⟨h2a, h2b⟩ | h3
      · exact Or.inl (Or.inl h1)
      · cases hs : segs (fixAttr attr) with
        | nil => rw [hs] at h2a; simp [startsUU] at h2a
        | cons n0 ns =>
          rw [hs] at h2a h2b
          simp only [List.headD] at h2a
          refine Or.inl (Or.inr ?_)
          dsimp only
          rw [Bool.and_eq_true, h2a]
          refine ⟨rfl, ?_⟩
          rw [beq_iff_eq]
          exact h2b
      · exact Or.inr h3
    simp only [real_attribute_set, hl, if_true]
  · intro fs v; rfl
  · intro v; rfl
  · intro v; rfl

/-- Witness for C6 (amended): the single-segment name `w` is stored as a
literal key, and `a__b` sets attribute `b` on the pre-existing object `a`. -/
theorem c6_path_witness :
    real_attribute_set [] "w" (.int 0) = .ok [("w", .int 0)]
  ∧ real_attribute_set [("a", .obj [("b", .int 9)])] "a__b" (.int 1)
      = .ok [("a", .obj [("b", .int 1)])] := by
  constructor
  · exact c6_path.1 [] "w" (.int 0) (Or.inr (Or.inr rfl))
  · exact c6_path.2.1 [("b", .int 9)] (.int 1)

/-- C7: Environment lookup resolves a name first in the local bindings; on a
local miss (`KeyError`) it delegates to the parent scope when one is
present; and a name absent from the environment and from every ancestor in
the parent chain fails with the Name-not-found (`AttributeError`)
condition. -/
theorem c7_lookup :
    (∀ (d : List (String × Value)) (p : Option Env) (n : String) (v : Value),
      real_attribute_get d n = .ok v → envGetattr (.mk d p) n = .ok v)
  ∧ (∀ (d : List (String × Value)) (p : Env) (n k : String),
      real_attribute_get d n = .error (.keyMiss k) →
      envGetattr (.mk d (some p)) n = envGetattr p n)
  ∧ (∀ (env : Env) (n : String), absentAll env n = true →
      envGetattr env n = .error (.attrMiss n)) := by
  refine ⟨?_, ?_, ?_⟩
  · intro d p n v h
    cases p with
    | none => simp only [envGetattr, h]
    | some q => simp only [envGetattr, h]
  · intro d p n k h
    simp only [envGetattr, h]
  · exact absentAll_spec

/-- Witness for C7: a name found only in the parent is resolved there, and
a name absent from a two-environment chain fails with `AttributeError`. -/
theorem c7_lookup_witness :
    envGetattr (.mk [] (some (.mk [("q", .int 5)] Option.none))) "q" = .ok (.int 5)
  ∧ envGetattr (.mk [("r", .int 1)] (some (.mk [] Option.none))) "q"
      = .error (.attrMiss "q") := by
  constructor
  · exact c7_lookup.2.1 [] (.mk [("q", .int 5)] Option.none) "q" "q" rfl
  · exact c7_lookup.2.2 (.mk [("r", .int 1)] (some (.mk [] Option.none))) "q" rfl

/-- Counterexample to C8 as stated: closing the same ClassScope a second
time does not fail — after a first close has materialized the type and
bound it in the parent, closing again succeeds, materializing an equal
value and leaving the parent binding unchanged. -/
theorem c8_cex :
    classEnd ⟨[("a", .int 1)], "Foo", [], some (.mk [] Option.none)⟩
      = .ok (Value.cls "Foo" [] [("a", .int 1)],
             some (.mk [("Foo", Value.cls "Foo" [] [("a", .int 1)])] Option.none))
  ∧ classEnd ⟨[("a", .int 1)], "Foo", [],
        some (.mk [("Foo", Value.cls "Foo" [] [("a", .int 1)])] Option.none)⟩
      = .ok (Value.cls "Foo" [] [("a", .int 1)],
             some (.mk [("Foo", Value.cls "Foo" [] [("a", .int 1)])] Option.none)) :=
  ⟨rfl, rfl⟩

/-- C8 (amended): the first close of a ClassScope materializes a
record/type value from its accumulated bindings and base identifiers and
binds it under the ClassScope's name in the parent scope when one exists;
closing is not terminal — closing the same ClassScope again (its parent now
the updated scope, as the in-place Python mutation leaves it) succeeds and
returns the same value and parent. -/
theorem c8_close_again : ∀ (c : ClassScope) (p2 : Env) (v : Value),
    classEnd c = .ok (v, some p2) →
    v = Value.cls c.name c.bases c.d ∧
    classEnd { c with parent := some p2 } = .ok (v, some p2) := by
  intro c p2 v h
  simp only [classEnd] at h ⊢
  cases hp : c.parent with
  | none => rw [hp] at h; simp at h
  | some p =>
    rw [hp] at h
    dsimp only at h ⊢
    cases hs : envSetMany p [(c.name, Value.cls c.name c.bases c.d)] with
    | error e => rw [hs] at h; simp at h
    | ok p2x =>
      rw [hs] at h
      simp only [Except.ok.injEq, Prod.mk.injEq, Option.some.injEq] at h
      obtain ⟨hv, hpx⟩ := h
      subst hv hpx
      refine ⟨rfl, ?_⟩
      rw [envSetMany_idem p c.name (Value.cls c.name c.bases c.d) p2x hs]

/-- Witness for C8 (amended): an empty `Foo` scope closes, and closes again
with the same outcome. -/
theorem c8_close_again_witness :
    Value.cls "Foo" [] [] = Value.cls "Foo" [] []
  ∧ classEnd ⟨[], "Foo", [], some (.mk [("Foo", Value.cls "Foo" [] [])] Option.none)⟩
      = .ok (Value.cls "Foo" [] [],
             some (.mk [("Foo", Value.cls "Foo" [] [])] Option.none)) := by
  exact c8_close_again ⟨[], "Foo", [], some (.mk [] Option.none)⟩
    (.mk [("Foo", Value.cls "Foo" [] [])] Option.none) (Value.cls "Foo" [] []) rfl

/-- C9: Deferred-expression reduction is idempotent on concrete values —
`calculate` returns a non-deferred value unchanged without looping, for any
fuel including zero — and on a deferred expression it replaces the
expression by the result of one evaluation step and recurses, stopping at
the first non-deferred result. -/
theorem c9_reduce :
    (∀ (fuel : Nat) (v : Value) (env : Env), calculate fuel (.val v) env = .ok v)
  ∧ (∀ (fuel : Nat) (e : Expr) (env : Env),
      calculate (fuel + 1) (.expr e) env =
        match evalStep e env with
        | .error er => .error er
        | .ok d => calculate fuel d env) := by
  constructor
  · intro fuel v env; rfl
  · intro fuel e env
    show calcLoop (fuel + 1) e env = _
    simp only [calcLoop]
    cases evalStep e env with
    | error er => rfl
    | ok d => cases d <;> rfl

/-- C10: The arity check validates only the total argument count, never
keyword names: calling the two-parameter `retYFn` (`f(x, y): ret y`) with
one positional and one keyword argument passes the arity check even though
the keyword name `z` is not among the declared parameters, leaving `y`
unbound — the call fails with Name-not-found, not an Arity error; a keyword
duplicating the positionally-bound `x` likewise passes the count check and
overwrites the positional binding (keyword bindings are applied after
positional ones), leaving `y` unbound without any Arity error. -/
theorem c10_kwnames :
    (1 : Nat) + 1 = retYFn.args.length
  ∧ "z" ∉ retYFn.args
  ∧ retYFn.call 10 [.int 1] [("z", .int 2)] = .error (.attrMiss "y")
  ∧ retYFn.call 10 [.int 1] [("x", .int 5)] = .error (.attrMiss "y")
  ∧ retXFn.call 10 [.int 1] [("x", .int 5)] = .ok (.int 5) := by
  exact ⟨rfl, by decide, rfl, rfl, rfl⟩

end PyDot
